import Mathlib

/-!
Verification of the subtitle text demuxer (modules/demux/subtitle.c).

Lines of input are modelled as `List Char` (a C string without its NUL
terminator).  C `float`/`double` arithmetic is modelled exactly by the
fraction type `QF` (an unreduced rational: exact addition, multiplication
and division, so every value the C code computes on these inputs is
represented without rounding); conversions to `int64_t` truncate toward
zero, modelled by `truncQ`.
`sscanf` patterns are translated matcher by matcher, preserving C scanf
semantics: a literal whitespace character in a format matches any run of
whitespace (including none), `%d` skips leading whitespace and needs at
least one digit, and the return value counts the conversions completed
before the first failure.
-/

namespace Subtitle

/-! ## Exact fractions

`QF` is an exact, unnormalized fraction: the denominator is kept positive
by every constructor below, and no gcd reduction is performed, so all
operations evaluate by pure integer arithmetic. -/

structure QF where
  n : Int
  d : Int
deriving DecidableEq, Repr

instance : OfNat QF k := ⟨⟨(k : Int), 1⟩⟩

def QF.add (a b : QF) : QF := ⟨a.n * b.d + b.n * a.d, a.d * b.d⟩

def QF.mul (a b : QF) : QF := ⟨a.n * b.n, a.d * b.d⟩

def QF.neg (a : QF) : QF := ⟨-a.n, a.d⟩

/-- Exact division, fixing the sign so the denominator stays positive
whenever the divisor is nonzero. -/
def QF.div (a b : QF) : QF :=
  let n := a.n * b.d
  let d := a.d * b.n
  if d < 0 then ⟨-n, -d⟩ else ⟨n, d⟩

instance : Add QF := ⟨QF.add⟩
instance : Mul QF := ⟨QF.mul⟩
instance : Neg QF := ⟨QF.neg⟩
instance : Div QF := ⟨QF.div⟩

instance : LE QF := ⟨fun a b => a.n * b.d ≤ b.n * a.d⟩
instance : LT QF := ⟨fun a b => a.n * b.d < b.n * a.d⟩

instance (a b : QF) : Decidable (a ≤ b) :=
  show Decidable (a.n * b.d ≤ b.n * a.d) from inferInstance

instance (a b : QF) : Decidable (a < b) :=
  show Decidable (a.n * b.d < b.n * a.d) from inferInstance

/-- An integer as a fraction. -/
def qof (i : Int) : QF := ⟨i, 1⟩

/-- Powers of ten, positive or negative exponent. -/
def QF.pow10 (e : Int) : QF :=
  if 0 ≤ e then ⟨((10 : Nat) ^ e.toNat : Nat), 1⟩ else ⟨1, ((10 : Nat) ^ (-e).toNat : Nat)⟩

/-- Truncation toward zero of a fraction, as C casts of `float`/`double`
to `int64_t` behave. -/
def truncQ (q : QF) : Int := Int.tdiv q.n q.d

/-- C `isspace` for the default locale (ASCII). -/
def isWs (c : Char) : Bool :=
  c = ' ' || c = '\t' || c = '\n' || c = '\r' || c = '\x0b' || c = '\x0c'

/-- Skip a (possibly empty) run of whitespace, as a literal blank in a scanf
format does. -/
def dropWs : List Char → List Char
  | [] => []
  | c :: r => if isWs c then dropWs r else c :: r

def isDig (c : Char) : Bool := '0' ≤ c && c ≤ '9'

def digVal (c : Char) : Nat := c.toNat - '0'.toNat

/-- C `isalpha` for the default locale (ASCII). -/
def isAlphaC (c : Char) : Bool :=
  ('A' ≤ c && c ≤ 'Z') || ('a' ≤ c && c ≤ 'z')

/-- ASCII `tolower`. -/
def lowerC (c : Char) : Char :=
  if 'A' ≤ c && c ≤ 'Z' then Char.ofNat (c.toNat + 32) else c

/-- ASCII `toupper`. -/
def upperC (c : Char) : Char :=
  if 'a' ≤ c && c ≤ 'z' then Char.ofNat (c.toNat - 32) else c

/-- Case-insensitive character equality. -/
def eqCI (a b : Char) : Bool := lowerC a = lowerC b

/-- Match one exact literal character (scanf non-blank literal). -/
def litc (c : Char) : List Char → Option (List Char)
  | [] => none
  | x :: r => if x = c then some r else none

/-- Match an exact literal character sequence. -/
def litcs : List Char → List Char → Option (List Char)
  | [], s => some s
  | c :: cs, s => (litc c s).bind (litcs cs)

/-- Accumulate decimal digits; returns the value and the rest. -/
def digitsAux : Nat → List Char → Nat × List Char
  | acc, [] => (acc, [])
  | acc, c :: r => if isDig c then digitsAux (acc * 10 + digVal c) r else (acc, c :: r)

/-- A non-empty run of decimal digits. -/
def scanNat : List Char → Option (Nat × List Char)
  | [] => none
  | c :: r => if isDig c then some (digitsAux (digVal c) r) else none

/-- scanf `%d`: skip whitespace, optional sign, at least one digit. -/
def scanIntC (s : List Char) : Option (Int × List Char) :=
  match dropWs s with
  | '-' :: r => (scanNat r).map (fun p => (-(p.1 : Int), p.2))
  | '+' :: r => (scanNat r).map (fun p => ((p.1 : Int), p.2))
  | s' => (scanNat s').map (fun p => ((p.1 : Int), p.2))

/-- Digits with a count of how many were consumed (for fractional parts). -/
def digitsCount : Nat → Nat → List Char → Nat × Nat × List Char
  | acc, n, [] => (acc, n, [])
  | acc, n, c :: r =>
    if isDig c then digitsCount (acc * 10 + digVal c) (n + 1) r else (acc, n, c :: r)

/-- scanf `%f` / C `strtod` body, modelled exactly over `QF`:
optional sign, digits with optional fraction (at least one digit in total),
optional exponent (consumed only when followed by at least one digit). -/
def scanFloatQ (s : List Char) : Option (QF × List Char) :=
  let s0 := dropWs s
  let sgn : Bool × List Char :=
    match s0 with
    | '-' :: r => (true, r)
    | '+' :: r => (false, r)
    | _ => (false, s0)
  let (ip, n1, s1) := digitsCount 0 0 sgn.2
  let frac : Nat × Nat × List Char :=
    match s1 with
    | '.' :: r => digitsCount 0 0 r
    | _ => (0, 0, s1)
  let (fp, n2, s2) := frac
  if n1 + n2 = 0 then none
  else
    let base : QF := ⟨(ip : Int) * ((10 : Nat) ^ n2 : Nat) + (fp : Int), ((10 : Nat) ^ n2 : Nat)⟩
    let ex : Int × List Char :=
      match s2 with
      | c :: r =>
        if c = 'e' || c = 'E' then
          match r with
          | '-' :: r2 =>
            match scanNat r2 with
            | some (v, r3) => (-(v : Int), r3)
            | none => (0, s2)
          | '+' :: r2 =>
            match scanNat r2 with
            | some (v, r3) => ((v : Int), r3)
            | none => (0, s2)
          | _ =>
            match scanNat r with
            | some (v, r3) => ((v : Int), r3)
            | none => (0, s2)
        else (0, s2)
      | [] => (0, s2)
    let q := base * QF.pow10 ex.1
    some (if sgn.1 then QF.neg q else q, ex.2)

/-- The C `us_strtod`: parse a leading C-locale double, 0 when nothing parses. -/
def usStrtodQ (s : List Char) : QF :=
  match scanFloatQ s with
  | some (q, _) => q
  | none => 0

/-- Take characters satisfying `p` (scanf `%[...]` body). -/
def spanP (p : Char → Bool) : List Char → List Char × List Char
  | [] => ([], [])
  | c :: r =>
    if p c then
      let (a, b) := spanP p r
      (c :: a, b)
    else ([], c :: r)

/-- scanf `%[...]`: a non-empty run of characters satisfying `p`. -/
def scanSet (p : Char → Bool) (s : List Char) : Option (List Char × List Char) :=
  match spanP p s with
  | ([], _) => none
  | (a, b) => some (a, b)

/-- Take at most `n` characters satisfying `p`. -/
def takeWhileN (p : Char → Bool) : Nat → List Char → List Char × List Char
  | _, [] => ([], [])
  | 0, s => ([], s)
  | n + 1, c :: r =>
    if p c then
      let (a, b) := takeWhileN p n r
      (c :: a, b)
    else ([], c :: r)

/-- scanf `%N[...]`: one to `n` characters satisfying `p`. -/
def scanSetN (p : Char → Bool) (n : Nat) (s : List Char) :
    Option (List Char × List Char) :=
  match takeWhileN p n s with
  | ([], _) => none
  | (a, b) => some (a, b)

/-- Not a carriage return or line feed (the `%[^\r\n]` character class). -/
def notCRLF (c : Char) : Bool := c ≠ '\r' && c ≠ '\n'

/-- The C `strncasecmp(s, needle, strlen needle) == 0`: `needle` is a
case-insensitive prefix of `s`. -/
def prefixCI : List Char → List Char → Bool
  | [], _ => true
  | _ :: _, [] => false
  | a :: as, b :: bs => eqCI a b && prefixCI as bs

/-- The C `strcasestr`: first case-insensitive occurrence of `needle`, returning the
suffix that follows it (the code always advances past the needle). -/
def substCI (needle : List Char) : List Char → Option (List Char)
  | [] => if prefixCI needle [] then some [] else none
  | c :: t =>
    if prefixCI needle (c :: t) then some ((c :: t).drop needle.length)
    else substCI needle t

/-- C `atoi`: like `%d` but yielding 0 when nothing parses. -/
def atoiC (s : List Char) : Int :=
  match scanIntC s with
  | some (v, _) => v
  | none => 0

/-- A hexadecimal digit's value (for `strtol` base detection): 0-9, a-f
(ASCII 97-102) and A-F (ASCII 65-70). -/
def hexVal (c : Char) : Option Nat :=
  let n := c.toNat
  if isDig c then some (digVal c)
  else if 97 ≤ n && n ≤ 102 then some (n - 87)
  else if 65 ≤ n && n ≤ 70 then some (n - 55)
  else none

def hexDigitsAux : Nat → List Char → Nat × List Char
  | acc, [] => (acc, [])
  | acc, c :: r =>
    match hexVal c with
    | some v => hexDigitsAux (acc * 16 + v) r
    | none => (acc, c :: r)

def isOct (c : Char) : Bool := '0' ≤ c && c ≤ '7'

def octDigitsAux : Nat → List Char → Nat × List Char
  | acc, [] => (acc, [])
  | acc, c :: r => if isOct c then octDigitsAux (acc * 8 + digVal c) r else (acc, c :: r)

/-- C `strtol(s, &end, 0)`: whitespace, optional sign, then decimal, `0x` hex
or leading-zero octal; returns the value and the end pointer's suffix. -/
def strtol0 (s : List Char) : Int × List Char :=
  let s1 := dropWs s
  let sgn : Bool × List Char :=
    match s1 with
    | '-' :: r => (true, r)
    | '+' :: r => (false, r)
    | _ => (false, s1)
  let body : Option (Nat × List Char) :=
    match sgn.2 with
    | '0' :: c :: r =>
      if c = 'x' || c = 'X' then
        match r with
        | d :: _ => if (hexVal d).isSome then some (hexDigitsAux 0 r) else some (0, c :: r)
        | [] => some (0, c :: r)
      else some (octDigitsAux 0 (c :: r))
    | '0' :: [] => some (0, [])
    | other => (scanNat other).map id
  match body with
  | some (v, rest) => (if sgn.1 then -(v : Int) else (v : Int), rest)
  | none => (0, s)

/-! ## The Line Cursor (`text_t`, `TextLoad`, `TextGetLine`, `TextPreviousLine`) -/

/-- The C `text_t`: the loaded lines plus the read cursor `i_line`.
`i_line` is a C `int`, hence modelled as `Int`. -/
structure TextT where
  lines : List (List Char)
  iLine : Int
deriving DecidableEq, Repr

/-- The C `TextLoad`: reads every line; fails (`VLC_EGENERIC`) when zero lines
result. -/
def TextLoad (streamLines : List (List Char)) : Option TextT :=
  if streamLines.length = 0 then none else some ⟨streamLines, 0⟩

/-- The C `TextGetLine`: NULL at or past the end (cursor unmoved), otherwise the
current line, advancing the cursor. -/
def TextGetLine (t : TextT) : Option (List Char) × TextT :=
  if (t.lines.length : Int) ≤ t.iLine then (none, t)
  else (some (t.lines.getD t.iLine.toNat []), ⟨t.lines, t.iLine + 1⟩)

/-- The C `TextPreviousLine`: steps the cursor back one line, a no-op at 0. -/
def TextPreviousLine (t : TextT) : TextT :=
  if 0 < t.iLine then ⟨t.lines, t.iLine - 1⟩ else t

/-! ## The data model -/

/-- A parsed cue (`subtitle_t`): start/stop in microseconds and the text. -/
structure Cue where
  start : Int
  stop : Int
  text : List Char
deriving DecidableEq, Repr

/-- A default scratch cue, standing in for an uninitialized `subtitle_t`. -/
def cue0 : Cue := ⟨0, 0, []⟩

/-- The closed enum of recognized grammars (`SUB_TYPE_*`). -/
inductive SubType
  | unknown
  | microdvd
  | subrip
  | ssa1
  | ssa2_4
  | ass
  | vplayer
  | sami
  | subviewer
  | dvdsubtitle
  | mpl2
  | aqt
  | pjs
  | mpsub
  | jacosub
deriving DecidableEq, Repr

/-- The C `static` variables of the translation unit: the MPSub running total
and scale factor, and the JacoSub comment depth, time resolution and time
shift.  They live for the whole process, not for one session. -/
structure Globals where
  mpsubTotal : QF
  mpsubFactor : QF
  jssComment : Int
  jssResolution : Int
  jssShift : Int
deriving DecidableEq, Repr

/-- The statics' values at process start: `mpsub_total = 0.0`,
`mpsub_factor = 0.0`, `i_comment = 0`, `jss_time_resolution = 30`,
`jss_time_shift = 0`. -/
def procGlobals : Globals := ⟨0, 0, 0, 30, 0⟩

/-- The mutable environment a parser call sees: the line cursor and the
`demux_sys_t` fields it touches, the `sub-fps` VLC variable, and the
process statics. -/
structure Pst where
  txt : TextT
  mspf : Int
  header : Option (List Char)
  iType : SubType
  subFps : QF
  g : Globals
deriving DecidableEq, Repr

/-! ## The Format Prober (the signature table inside `Open`) -/

def samiTag : List Char := "<SAMI>".toList
def infoTag : List Char := "[INFORMATION]".toList
def ssa1Banner : List Char := "!: This is a Sub Station Alpha v1".toList
def assBanner : List Char := "ScriptType: v4.00+".toList
def ssa24Banner : List Char := "ScriptType: v4.00".toList
def dlgMarked : List Char := "Dialogue: Marked".toList
def dlgTag : List Char := "Dialogue:".toList

/-- The C `sscanf(s, "{%d}{%d}", ..) == 2`: both conversions must complete; the
trailing brace literal never affects the count. -/
def scanBrace2 (s : List Char) : Bool :=
  (do
    let r ← litc '{' s
    let (_, r) ← scanIntC r
    let r ← litc '}' r
    let r ← litc '{' r
    let (_, _) ← scanIntC r
    pure ()).isSome

/-- The C `sscanf(s, "{%d}{}", ..) == 1`: only the first conversion counts. -/
def scanBrace1 (s : List Char) : Bool :=
  (do
    let r ← litc '{' s
    let (_, _) ← scanIntC r
    pure ()).isSome

def matchMicroDvd (s : List Char) : Bool := scanBrace2 s || scanBrace1 s

/-- The C `h:m:s<sep>frac`, the first half of the SubRip/SubViewer stamp pair. -/
def scanHMSD (sep : Char) (s : List Char) :
    Option ((Int × Int × Int × Int) × List Char) := do
  let (h, r) ← scanIntC s
  let r ← litc ':' r
  let (m, r) ← scanIntC r
  let r ← litc ':' r
  let (sec, r) ← scanIntC r
  let r ← litc sep r
  let (d, r) ← scanIntC r
  pure ((h, m, sec, d), r)

/-- The C `sscanf(s, "%d:%d:%d,%d --> %d:%d:%d,%d", ..) == 8`. -/
def scanSubRipTimes (s : List Char) :
    Option ((Int × Int × Int × Int) × (Int × Int × Int × Int) × List Char) := do
  let (t1, r) ← scanHMSD ',' s
  let r := dropWs r
  let r ← litcs ['-', '-', '>'] r
  let r := dropWs r
  let (t2, r) ← scanHMSD ',' r
  pure (t1, t2, r)

/-- The C `sscanf(s, "%d:%d:%d.%d,%d:%d:%d.%d", ..) == 8` (SubViewer). -/
def scanSubViewerTimes (s : List Char) :
    Option ((Int × Int × Int × Int) × (Int × Int × Int × Int) × List Char) := do
  let (t1, r) ← scanHMSD '.' s
  let r ← litc ',' r
  let (t2, r) ← scanHMSD '.' r
  pure (t1, t2, r)

/-- The C `sscanf(s, "%d:%d:%d.%d %d:%d:%d", ..) == 7` (JacoSub stamp pair). -/
def matchJacoTimes (s : List Char) : Bool :=
  (do
    let (_, r) ← scanIntC s
    let r ← litc ':' r
    let (_, r) ← scanIntC r
    let r ← litc ':' r
    let (_, r) ← scanIntC r
    let r ← litc '.' r
    let (_, r) ← scanIntC r
    let r := dropWs r
    let (_, r) ← scanIntC r
    let r ← litc ':' r
    let (_, r) ← scanIntC r
    let r ← litc ':' r
    let (_, _) ← scanIntC r
    pure ()).isSome

/-- The C `sscanf(s, "@%d @%d", ..) == 2` (JacoSub frame pair). -/
def matchJacoAt (s : List Char) : Bool :=
  (do
    let r ← litc '@' s
    let (_, r) ← scanIntC r
    let r := dropWs r
    let r ← litc '@' r
    let (_, _) ← scanIntC r
    pure ()).isSome

/-- Both VPlayer probes, `"%d:%d:%d:"` and `"%d:%d:%d "`, return 3 once the
three conversions complete, whatever follows. -/
def matchVplayer (s : List Char) : Bool :=
  (do
    let (_, r) ← scanIntC s
    let r ← litc ':' r
    let (_, r) ← scanIntC r
    let r ← litc ':' r
    let (_, _) ← scanIntC r
    pure ()).isSome

/-- The C `sscanf(s, "{T %d:%d:%d:%d", ..) == 4` (DVDSubtitle). -/
def matchDvdSubtitle (s : List Char) : Bool :=
  (do
    let r ← litc '{' s
    let r ← litc 'T' r
    let r := dropWs r
    let (_, r) ← scanIntC r
    let r ← litc ':' r
    let (_, r) ← scanIntC r
    let r ← litc ':' r
    let (_, r) ← scanIntC r
    let r ← litc ':' r
    let (_, _) ← scanIntC r
    pure ()).isSome

/-- The C `"[%d][%d]" == 2` or `"[%d][]" == 1` (MPL2). -/
def matchMpl2 (s : List Char) : Bool :=
  (do
    let r ← litc '[' s
    let (_, r) ← scanIntC r
    let r ← litc ']' r
    let r ← litc '[' r
    let (_, _) ← scanIntC r
    pure ()).isSome ||
  (do
    let r ← litc '[' s
    let (_, _) ← scanIntC r
    pure ()).isSome

/-- The C `"FORMAT=%d" == 1`, or `"FORMAT=TIM%c" == 1` with the char equal to
`'E'` (MPSub). -/
def matchMpsub (s : List Char) : Bool :=
  (do
    let r ← litcs "FORMAT=".toList s
    let (_, _) ← scanIntC r
    pure ()).isSome ||
  (match litcs "FORMAT=TIM".toList s with
   | some (c :: _) => c = 'E'
   | _ => false)

/-- The C `sscanf(s, "-->> %d", ..) == 1` (AQTitle). -/
def matchAqt (s : List Char) : Bool :=
  (do
    let r ← litcs ['-', '-', '>', '>'] s
    let r := dropWs r
    let (_, _) ← scanIntC r
    pure ()).isSome

/-- The C `sscanf(s, "%d,%d,", ..) == 2`: the final comma never affects the
count (PJS). -/
def matchPjs (s : List Char) : Bool :=
  (do
    let (_, r) ← scanIntC s
    let r ← litc ',' r
    let (_, _) ← scanIntC r
    pure ()).isSome

/-- One row of the probing chain: its test, the format it selects, and
whether the match is strong (breaks the scan) or weak (tentative). -/
structure SigRow where
  test : List Char → Bool
  fmt : SubType
  strong : Bool

def sigDefault : SigRow := ⟨fun _ => false, .unknown, false⟩

/-- The signature chain of `Open`, in source order.  The four rows without a
`break` in the C chain (JacoSub, MPSub, AQTitle, PJS) are the weak ones. -/
def sigTable : List SigRow :=
  [ ⟨fun s => (substCI samiTag s).isSome, .sami, true⟩,
    ⟨matchMicroDvd, .microdvd, true⟩,
    ⟨fun s => (scanSubRipTimes s).isSome, .subrip, true⟩,
    ⟨fun s => prefixCI ssa1Banner s, .ssa1, true⟩,
    ⟨fun s => prefixCI assBanner s, .ass, true⟩,
    ⟨fun s => prefixCI ssa24Banner s, .ssa2_4, true⟩,
    ⟨fun s => prefixCI dlgMarked s, .ssa2_4, true⟩,
    ⟨fun s => prefixCI dlgTag s, .ass, true⟩,
    ⟨fun s => (substCI infoTag s).isSome, .subviewer, true⟩,
    ⟨fun s => matchJacoTimes s || matchJacoAt s, .jacosub, false⟩,
    ⟨matchVplayer, .vplayer, true⟩,
    ⟨matchDvdSubtitle, .dvdsubtitle, true⟩,
    ⟨matchMpl2, .mpl2, true⟩,
    ⟨matchMpsub, .mpsub, false⟩,
    ⟨matchAqt, .aqt, false⟩,
    ⟨matchPjs, .pjs, false⟩ ]

/-- Classify one line: the first matching row wins (the chain is
`else if`), reporting its format and strength. -/
def probeLine (s : List Char) : Option (SubType × Bool) :=
  (sigTable.find? (fun row => row.test s)).map (fun row => (row.fmt, row.strong))

/-- The probing loop: up to `fuel` lines; a strong match ends the scan, a
weak match replaces the tentative result and scanning continues. -/
def probeGo : Nat → SubType → List (List Char) → SubType
  | _, cur, [] => cur
  | 0, cur, _ :: _ => cur
  | fuel + 1, cur, l :: rest =>
    match probeLine l with
    | some (t, true) => t
    | some (t, false) => probeGo fuel t rest
    | none => probeGo fuel cur rest

/-- Format auto-detection: scan at most 256 lines. -/
def probe (ls : List (List Char)) : SubType := probeGo 256 .unknown ls

/-! ## Format Parsers

Each parser has the C signature `int pf_read(demux_t*, subtitle_t*, int)`:
here `Pst → Cue → Nat → Option Cue × Pst`, where the `Cue` argument is the
uninitialized scratch slot the C code writes into, `none` is
`VLC_EGENERIC`, and the returned `Pst` carries every side effect (cursor
position, header, frame duration, the `sub-fps` variable and the statics).
Line-reading loops recurse on a fuel that over-approximates the number of
remaining lines; every iteration consumes a line, so the fuel never runs
out when it starts at `lines.length + 1`. -/

/-- Replace `'|'` by a line break (MicroDVD, VPlayer, MPL2 bodies). -/
def pipeToNl (l : List Char) : List Char :=
  l.map (fun c => if c = '|' then '\n' else c)

/-- The C `sscanf(s, "{%d}{}%[^\r\n]", ..) == 2`. -/
def scanMicroDvd1 (s : List Char) : Option (Int × List Char) := do
  let r ← litc '{' s
  let (a, r) ← scanIntC r
  let r ← litc '}' r
  let r ← litc '{' r
  let r ← litc '}' r
  let (t, _) ← scanSet notCRLF r
  pure (a, t)

/-- The C `sscanf(s, "{%d}{%d}%[^\r\n]", ..) == 3`. -/
def scanMicroDvd2 (s : List Char) : Option (Int × Int × List Char) := do
  let r ← litc '{' s
  let (a, r) ← scanIntC r
  let r ← litc '}' r
  let r ← litc '{' r
  let (b, r) ← scanIntC r
  let r ← litc '}' r
  let (t, _) ← scanSet notCRLF r
  pure (a, b, t)

/-- The `ParseMicroDvd` line loop: skip malformed lines; a `{1}{1}fps` line
updates the frame duration (only when `sub-fps` is unset) and is consumed
without producing a cue. -/
def ParseMicroDvdAux : Nat → Pst → Option (Int × Int × List Char) × Pst
  | 0, st => (none, st)
  | fuel + 1, st =>
    match TextGetLine st.txt with
    | (none, txt') => (none, { st with txt := txt' })
    | (some s, txt') =>
      let st := { st with txt := txt' }
      let hit : Option (Int × Int × List Char) :=
        match scanMicroDvd1 s with
        | some (a, t) => some (a, 0, t)
        | none =>
          match scanMicroDvd2 s with
          | some (a, b, t) => some (a, b, t)
          | none => none
      match hit with
      | some (a, b, t) =>
        if a ≠ 1 ∨ b ≠ 1 then (some (a, b, t), st)
        else
          let fps := usStrtodQ t
          let st :=
            if 0 < fps ∧ st.subFps ≤ 0 then
              { st with mspf := truncQ (1000000 / fps) }
            else st
          ParseMicroDvdAux fuel st
      | none => ParseMicroDvdAux fuel st

def ParseMicroDvd (st : Pst) (_sc : Cue) (_idx : Nat) : Option Cue × Pst :=
  match ParseMicroDvdAux (st.txt.lines.length + 1) st with
  | (none, st') => (none, st')
  | (some (a, b, t), st') =>
    (some ⟨a * st'.mspf, b * st'.mspf, pipeToNl t⟩, st')

/-- Replace every `"[br]"` token by a line break (SubViewer). -/
def replaceBrs : List Char → List Char
  | [] => []
  | c :: t =>
    if c = '[' ∧ t.take 3 = ['b', 'r', ']'] then '\n' :: replaceBrs (t.drop 3)
    else c :: replaceBrs t
termination_by l => l.length
decreasing_by
  all_goals simp [List.length_drop]
  all_goals omega

/-- The stamp-seeking loop of `ParseSubRipSubViewer`. -/
def subRipSeek (scanT : List Char →
      Option ((Int × Int × Int × Int) × (Int × Int × Int × Int) × List Char)) :
    Nat → TextT → Option ((Int × Int × Int × Int) × (Int × Int × Int × Int)) × TextT
  | 0, txt => (none, txt)
  | fuel + 1, txt =>
    match TextGetLine txt with
    | (none, txt') => (none, txt')
    | (some s, txt') =>
      match scanT s with
      | some (t1, t2, _) => (some (t1, t2), txt')
      | none => subRipSeek scanT fuel txt'

/-- The body loop of `ParseSubRipSubViewer`: concatenate lines (each with a
trailing newline) until the first empty line; end of input without that
empty line is `VLC_EGENERIC`. -/
def subRipBody (brReplace : Bool) :
    Nat → TextT → List Char → Option (List Char) × TextT
  | 0, txt, _ => (none, txt)
  | fuel + 1, txt, acc =>
    match TextGetLine txt with
    | (none, txt') => (none, txt')
    | (some s, txt') =>
      if s.length = 0 then (some acc, txt')
      else
        let acc := acc ++ s ++ ['\n']
        let acc := if brReplace then replaceBrs acc else acc
        subRipBody brReplace fuel txt' acc

/-- Convert an `h,m,s,msfrac` stamp to microseconds, as the C code does:
`((h*3600*1000 + m*60*1000 + s*1000 + d) * 1000)`. -/
def stampMsToUs (t : Int × Int × Int × Int) : Int :=
  (t.1 * 3600 * 1000 + t.2.1 * 60 * 1000 + t.2.2.1 * 1000 + t.2.2.2) * 1000

def ParseSubRipSubViewer (scanT : List Char →
      Option ((Int × Int × Int × Int) × (Int × Int × Int × Int) × List Char))
    (brReplace : Bool) (st : Pst) : Option Cue × Pst :=
  match subRipSeek scanT (st.txt.lines.length + 1) st.txt with
  | (none, txt') => (none, { st with txt := txt' })
  | (some (t1, t2), txt') =>
    match subRipBody brReplace (txt'.lines.length + 1) txt' [] with
    | (none, txt'') => (none, { st with txt := txt'' })
    | (some text, txt'') =>
      (some ⟨stampMsToUs t1, stampMsToUs t2, text⟩, { st with txt := txt'' })

def ParseSubRip (st : Pst) (_sc : Cue) (_idx : Nat) : Option Cue × Pst :=
  ParseSubRipSubViewer scanSubRipTimes false st

def ParseSubViewer (st : Pst) (_sc : Cue) (_idx : Nat) : Option Cue × Pst :=
  ParseSubRipSubViewer scanSubViewerTimes true st

/-! ### SSA / ASS -/

/-- Decimal digits of a natural number. -/
def natCharsGo : Nat → Nat → List Char → List Char
  | 0, _, acc => acc
  | fuel + 1, n, acc =>
    if n = 0 then acc
    else natCharsGo fuel (n / 10) (Char.ofNat (48 + n % 10) :: acc)

def natChars (n : Nat) : List Char :=
  if n = 0 then ['0'] else natCharsGo (n + 1) n []

/-- The C `%d`-style rendering of an integer. -/
def intChars (i : Int) : List Char :=
  if i < 0 then '-' :: natChars i.natAbs else natChars i.toNat

/-- The fields a Dialogue line yields to
`sscanf("Dialogue: %15[^,],%d:%d:%d.%d,%d:%d:%d.%d,%[^\r\n]")`. -/
structure SsaScan where
  marker : List Char
  h1 : Int
  m1 : Int
  s1 : Int
  c1 : Int
  h2 : Int
  m2 : Int
  s2 : Int
  c2 : Int
  payload : List Char
deriving DecidableEq, Repr

def scanSSADialogue (s : List Char) : Option SsaScan := do
  let r ← litcs dlgTag s
  let r := dropWs r
  let (mk, r) ← scanSetN (fun c => c ≠ ',') 15 r
  let r ← litc ',' r
  let (t1, r) ← scanHMSD '.' r
  let r ← litc ',' r
  let (t2, r) ← scanHMSD '.' r
  let r ← litc ',' r
  let (pl, _) ← scanSet notCRLF r
  pure ⟨mk, t1.1, t1.2.1, t1.2.2.1, t1.2.2.2,
        t2.1, t2.2.1, t2.2.2.1, t2.2.2.2, pl⟩

/-- The field-prefix repair of `ParseSSA`: SSA-1 inserts one leading comma;
the other dialects prepend `snprintf(temp, 16, "%d,%d,", i_idx, i_layer)`,
whose output is truncated to 15 characters by the buffer size; `i_layer`
is `atoi` of the marker field for ASS and 0 otherwise. -/
def ssaRepair (t : SubType) (idx : Nat) (marker payload : List Char) : List Char :=
  if t = .ssa1 then ',' :: payload
  else
    let layer : Int := if t = .ass then atoiC marker else 0
    ((intChars (idx : Int) ++ [','] ++ intChars layer ++ [',']).take 15) ++ payload

/-- Centisecond stamp to microseconds:
`((h*3600*1000 + m*60*1000 + s*1000 + c*10) * 1000)`. -/
def stampCsToUs (h m s c : Int) : Int :=
  (h * 3600 * 1000 + m * 60 * 1000 + s * 1000 + c * 10) * 1000

/-- The C `ParseSSA`: Dialogue lines become cues with repaired text; every other
line is appended (with a newline) to the session header. -/
def ParseSSA : Nat → Pst → Cue → Nat → Option Cue × Pst
  | 0, st, _, _ => (none, st)
  | fuel + 1, st, sc, idx =>
    match TextGetLine st.txt with
    | (none, txt') => (none, { st with txt := txt' })
    | (some s, txt') =>
      match scanSSADialogue s with
      | some d =>
        (some ⟨stampCsToUs d.h1 d.m1 d.s1 d.c1, stampCsToUs d.h2 d.m2 d.s2 d.c2,
               ssaRepair st.iType idx d.marker d.payload⟩,
         { st with txt := txt' })
      | none =>
        let h0 := st.header.getD []
        ParseSSA fuel
          { st with txt := txt', header := some (h0 ++ s ++ ['\n']) } sc idx

def ParseSSAEntry (st : Pst) (sc : Cue) (idx : Nat) : Option Cue × Pst :=
  ParseSSA (st.txt.lines.length + 1) st sc idx

/-! ### VPlayer -/

/-- The C `sscanf(s, "%d:%d:%d%*c%[^\r\n]", ..) == 4`: three ints, one arbitrary
separator character, then non-empty text. -/
def scanVplayer (s : List Char) : Option (Int × Int × Int × List Char) := do
  let (h, r) ← scanIntC s
  let r ← litc ':' r
  let (m, r) ← scanIntC r
  let r ← litc ':' r
  let (sec, r) ← scanIntC r
  match r with
  | [] => none
  | _ :: r2 => do
    let (t, _) ← scanSet notCRLF r2
    pure (h, m, sec, t)

def ParseVplayerAux : Nat → TextT → Option (Int × Int × Int × List Char) × TextT
  | 0, txt => (none, txt)
  | fuel + 1, txt =>
    match TextGetLine txt with
    | (none, txt') => (none, txt')
    | (some s, txt') =>
      match scanVplayer s with
      | some hit => (some hit, txt')
      | none => ParseVplayerAux fuel txt'

def ParseVplayer (st : Pst) (_sc : Cue) (_idx : Nat) : Option Cue × Pst :=
  match ParseVplayerAux (st.txt.lines.length + 1) st.txt with
  | (none, txt') => (none, { st with txt := txt' })
  | (some (h, m, sec, t), txt') =>
    (some ⟨(h * 3600 * 1000 + m * 60 * 1000 + sec * 1000) * 1000, 0, pipeToNl t⟩,
     { st with txt := txt' })

/-! ### SAMI -/

/-- The C `ParseSamiSearch` when the current pointer holds no match: read lines
until one contains the needle, returning the suffix after it. -/
def samiSearchLines (needle : List Char) : Nat → TextT → Option (List Char) × TextT
  | 0, txt => (none, txt)
  | fuel + 1, txt =>
    match TextGetLine txt with
    | (none, txt') => (none, txt')
    | (some p, txt') =>
      match substCI needle p with
      | some suf => (some suf, txt')
      | none => samiSearchLines needle fuel txt'

/-- The C `ParseSamiSearch`: look in the current pointer first (when non-NULL),
then in subsequent lines. -/
def ParseSamiSearch (needle : List Char) (fuel : Nat) (txt : TextT)
    (start : Option (List Char)) : Option (List Char) × TextT :=
  match start with
  | some st =>
    match substCI needle st with
    | some suf => (some suf, txt)
    | none => samiSearchLines needle fuel txt
  | none => samiSearchLines needle fuel txt

/-- The bounded text append of `ParseSami`: a character is stored only while
`i_text + 1 < sizeof(text)` with `sizeof(text) = 8192`; anything further is
silently dropped. -/
def samiAppend (acc : List Char) (c : Char) : List Char :=
  if c ≠ '\x00' ∧ acc.length + 1 < 8192 then acc ++ [c] else acc

def brTag : List Char := "<br".toList
def nbspTag : List Char := "&nbsp;".toList
def startNeedle : List Char := "Start=".toList
def pTag : List Char := "<P".toList
def gtNeedle : List Char := ['>']

/-- The character-accumulation loop of `ParseSami`: gather text until a line
whose tag mentions `Start=` begins (pushed back) or input ends. -/
def ParseSamiLoop : Nat → Option (List Char) → TextT → List Char → List Char × TextT
  | 0, _, txt, acc => (acc, txt)
  | fuel + 1, s, txt, acc =>
    match s with
    | none => (acc, txt)
    | some [] =>
      let r := TextGetLine txt
      ParseSamiLoop fuel r.1 r.2 acc
    | some (c :: cs) =>
      if c = '<' then
        if prefixCI brTag (c :: cs) then
          let r := ParseSamiSearch gtNeedle (txt.lines.length + 1) txt (some (c :: cs))
          ParseSamiLoop fuel r.1 r.2 (samiAppend acc '\n')
        else if (substCI startNeedle (c :: cs)).isSome then
          (acc, TextPreviousLine txt)
        else
          let r := ParseSamiSearch gtNeedle (txt.lines.length + 1) txt (some (c :: cs))
          ParseSamiLoop fuel r.1 r.2 acc
      else if (c :: cs).take 6 = nbspTag then
        ParseSamiLoop fuel (some ((c :: cs).drop 6)) txt (samiAppend acc ' ')
      else if c = '\t' then
        ParseSamiLoop fuel (some cs) txt (samiAppend acc ' ')
      else
        ParseSamiLoop fuel (some cs) txt (samiAppend acc c)

/-- A fuel bound for `ParseSamiLoop`: every line's characters plus one line
fetch each, plus the current pointer's characters. -/
def samiFuel (txt : TextT) (s : List Char) : Nat :=
  txt.lines.foldl (fun a l => a + l.length + 2) (s.length + 2)

def ParseSami (st : Pst) (_sc : Cue) (_idx : Nat) : Option Cue × Pst :=
  let f := st.txt.lines.length + 1
  match ParseSamiSearch startNeedle f st.txt none with
  | (none, txt1) => (none, { st with txt := txt1 })
  | (some s1, txt1) =>
    let v := strtol0 s1
    match ParseSamiSearch pTag (txt1.lines.length + 1) txt1 (some v.2) with
    | (none, txt2) => (none, { st with txt := txt2 })
    | (some s3, txt2) =>
      match ParseSamiSearch gtNeedle (txt2.lines.length + 1) txt2 (some s3) with
      | (none, txt3) => (none, { st with txt := txt3 })
      | (some s4, txt3) =>
        let r := ParseSamiLoop (samiFuel txt3 s4) (some s4) txt3 []
        (some ⟨v.1 * 1000, 0, r.1⟩, { st with txt := r.2 })

/-! ### DVDSubtitle -/

/-- The C `sscanf(s, "{T %d:%d:%d:%d", ..) == 4` with the values kept. -/
def scanDvdTimes (s : List Char) : Option (Int × Int × Int × Int) := do
  let r ← litc '{' s
  let r ← litc 'T' r
  let r := dropWs r
  let (h, r) ← scanIntC r
  let r ← litc ':' r
  let (m, r) ← scanIntC r
  let r ← litc ':' r
  let (sec, r) ← scanIntC r
  let r ← litc ':' r
  let (c, _) ← scanIntC r
  pure (h, m, sec, c)

def dvdSeek : Nat → TextT → Option (Int × Int × Int × Int) × TextT
  | 0, txt => (none, txt)
  | fuel + 1, txt =>
    match TextGetLine txt with
    | (none, txt') => (none, txt')
    | (some s, txt') =>
      match scanDvdTimes s with
      | some t => (some t, txt')
      | none => dvdSeek fuel txt'

/-- Body lines concatenate until a line that is exactly `"}"`. -/
def dvdBody : Nat → TextT → List Char → Option (List Char) × TextT
  | 0, txt, _ => (none, txt)
  | fuel + 1, txt, acc =>
    match TextGetLine txt with
    | (none, txt') => (none, txt')
    | (some s, txt') =>
      if s = ['}'] then (some acc, txt')
      else dvdBody fuel txt' (acc ++ s ++ ['\n'])

def ParseDVDSubtitle (st : Pst) (_sc : Cue) (_idx : Nat) : Option Cue × Pst :=
  match dvdSeek (st.txt.lines.length + 1) st.txt with
  | (none, txt') => (none, { st with txt := txt' })
  | (some (h, m, sec, c), txt') =>
    match dvdBody (txt'.lines.length + 1) txt' [] with
    | (none, txt'') => (none, { st with txt := txt'' })
    | (some text, txt'') =>
      (some ⟨stampCsToUs h m sec c, 0, text⟩, { st with txt := txt'' })

/-! ### MPL2 -/

/-- The C `sscanf(s, "[%d][] %[^\r\n]", ..) == 2`. -/
def scanMpl2a (s : List Char) : Option (Int × List Char) := do
  let r ← litc '[' s
  let (a, r) ← scanIntC r
  let r ← litc ']' r
  let r ← litc '[' r
  let r ← litc ']' r
  let r := dropWs r
  let (t, _) ← scanSet notCRLF r
  pure (a, t)

/-- The C `sscanf(s, "[%d][%d] %[^\r\n]", ..) == 3`. -/
def scanMpl2b (s : List Char) : Option (Int × Int × List Char) := do
  let r ← litc '[' s
  let (a, r) ← scanIntC r
  let r ← litc ']' r
  let r ← litc '[' r
  let (b, r) ← scanIntC r
  let r ← litc ']' r
  let r := dropWs r
  let (t, _) ← scanSet notCRLF r
  pure (a, b, t)

/-- The MPL2 text pass: `'|'` becomes a line break and a `'/'` opening a
logical line (italics) is removed. -/
def mpl2Text : List Char → Bool → List Char
  | [], _ => []
  | c :: r, atStart =>
    let c := if c = '|' then '\n' else c
    if c = '/' ∧ atStart then mpl2Text r true
    else c :: mpl2Text r (c = '\n')

def ParseMPL2Aux : Nat → TextT → Option (Int × Int × List Char) × TextT
  | 0, txt => (none, txt)
  | fuel + 1, txt =>
    match TextGetLine txt with
    | (none, txt') => (none, txt')
    | (some s, txt') =>
      match scanMpl2a s with
      | some (a, t) => (some (a, 0, t), txt')
      | none =>
        match scanMpl2b s with
        | some hit => (some hit, txt')
        | none => ParseMPL2Aux fuel txt'

def ParseMPL2 (st : Pst) (_sc : Cue) (_idx : Nat) : Option Cue × Pst :=
  match ParseMPL2Aux (st.txt.lines.length + 1) st.txt with
  | (none, txt') => (none, { st with txt := txt' })
  | (some (a, b, t), txt') =>
    (some ⟨a * 100000, b * 100000, mpl2Text t true⟩, { st with txt := txt' })

/-! ### AQTitle -/

/-- The C `sscanf(s, "-->> %d", ..) == 1` with the value kept. -/
def scanAqtTime (s : List Char) : Option Int := do
  let r ← litcs ['-', '-', '>', '>'] s
  let r := dropWs r
  let (t, _) ← scanIntC r
  pure t

/-- The C `ParseAQT`: a first `-->> n` marker opens the block, a second closes it
(pushing its line back); text lines accumulate; reaching the last loaded
line also closes the block.  Each marker overwrites the cue's start. -/
def ParseAQTAux : Nat → TextT → Cue → List Char → Bool → Option Cue × TextT
  | 0, txt, _, _, _ => (none, txt)
  | fuel + 1, txt, sub, acc, firstline =>
    match TextGetLine txt with
    | (none, txt') => (none, txt')
    | (some s, txt') =>
      match scanAqtTime s with
      | some t =>
        let sub := { sub with start := t, stop := 0 }
        if firstline then ParseAQTAux fuel txt' sub acc false
        else (some { sub with text := acc }, ⟨txt'.lines, txt'.iLine - 1⟩)
      | none =>
        let acc := acc ++ s ++ ['\n']
        if txt'.iLine = (txt'.lines.length : Int) then
          (some { sub with text := acc }, txt')
        else ParseAQTAux fuel txt' sub acc firstline

def ParseAQT (st : Pst) (sc : Cue) (_idx : Nat) : Option Cue × Pst :=
  match ParseAQTAux (st.txt.lines.length + 1) st.txt sc [] true with
  | (c, txt') => (c, { st with txt := txt' })

/-! ### PJS -/

/-- The C `sscanf(s, "%d,%d,\"%[^\n\r]", ..) == 3`. -/
def scanPjs (s : List Char) : Option (Int × Int × List Char) := do
  let (a, r) ← scanIntC s
  let r ← litc ',' r
  let (b, r) ← scanIntC r
  let r ← litc ',' r
  let r ← litc '\x22' r
  let (t, _) ← scanSet notCRLF r
  pure (a, b, t)

def ParsePJSAux : Nat → TextT → Option (Int × Int × List Char) × TextT
  | 0, txt => (none, txt)
  | fuel + 1, txt =>
    match TextGetLine txt with
    | (none, txt') => (none, txt')
    | (some s, txt') =>
      match scanPjs s with
      | some hit => (some hit, txt')
      | none => ParsePJSAux fuel txt'

/-- The C `ParsePJS`: tenth-of-second times scaled by 10, with the last character
(the closing quote) removed. -/
def ParsePJS (st : Pst) (_sc : Cue) (_idx : Nat) : Option Cue × Pst :=
  match ParsePJSAux (st.txt.lines.length + 1) st.txt with
  | (none, txt') => (none, { st with txt := txt' })
  | (some (a, b, t), txt') =>
    (some ⟨10 * a, 10 * b, t.dropLast⟩, { st with txt := txt' })

/-! ### MPSub

`ParseMPSub` updates the `static float mpsub_total, mpsub_factor` of the
translation unit; they are part of `Globals`, not of the session. -/

def fmtEq : List Char := "FORMAT=".toList
def fmtTim : List Char := "FORMAT=TIM".toList

/-- The C `sscanf(s, "FORMAT=TIM%c", &c) == 1 && c == 'E'`. -/
def mpsubTimE (s : List Char) : Bool :=
  match litcs fmtTim s with
  | some (c :: _) => c = 'E'
  | _ => false

/-- The truth value and output of `sscanf(s, "FORMAT=%[^\r\n]", temp)` used
as `if (sscanf(..))`: a completed match returns 1 with the captured text;
when the input runs out inside the literal or before the set matches,
sscanf returns EOF (−1), which is also truthy, and `temp` stays
uninitialized (modelled as the empty string). -/
def mpsubFormatScan (s : List Char) : Option (List Char) :=
  match litcs fmtEq s with
  | some rest =>
    match scanSet notCRLF rest with
    | some (t, _) => some t
    | none => some []
  | none => if s.isPrefixOf fmtEq then some [] else none

/-- The C `sscanf(s, "%f %f", ..) == 2`. -/
def scanTwoFloats (s : List Char) : Option (QF × QF) := do
  let (f1, r) ← scanFloatQ s
  let (f2, _) ← scanFloatQ r
  pure (f1, f2)

/-- The cue-start loop of `ParseMPSub`: a `FORMAT=` line sets the factor
(and possibly seeds the `sub-fps` variable) and falls through to the body
with the scratch times; a data line advances the running total twice. -/
def ParseMPSubHead : Nat → Pst → Option (Option (Int × Int)) × Pst
  | 0, st => (none, st)
  | fuel + 1, st =>
    match TextGetLine st.txt with
    | (none, txt') => (none, { st with txt := txt' })
    | (some s, txt') =>
      let st := { st with txt := txt' }
      if mpsubTimE s then
        (some none, { st with g := { st.g with mpsubFactor := 100 } })
      else
        match mpsubFormatScan s with
        | some temp =>
          let fps := usStrtodQ temp
          let st :=
            if 0 < fps ∧ st.subFps ≤ 0 then { st with subFps := fps } else st
          (some none, { st with g := { st.g with mpsubFactor := 1 } })
        | none =>
          match scanTwoFloats s with
          | some (f1, f2) =>
            let tot1 := st.g.mpsubTotal + f1 * st.g.mpsubFactor
            let start := truncQ (10000 * tot1)
            let tot2 := tot1 + f2 * st.g.mpsubFactor
            let stop := truncQ (10000 * tot2)
            (some (some (start, stop)), { st with g := { st.g with mpsubTotal := tot2 } })
          | none => ParseMPSubHead fuel st

/-- The body loop shared by the MPSub paths: lines concatenate until an
empty line. -/
def mpsubBody : Nat → TextT → List Char → Option (List Char) × TextT
  | 0, txt, _ => (none, txt)
  | fuel + 1, txt, acc =>
    match TextGetLine txt with
    | (none, txt') => (none, txt')
    | (some s, txt') =>
      if s.length = 0 then (some acc, txt')
      else mpsubBody fuel txt' (acc ++ s ++ ['\n'])

/-- The C `ParseMPSub`.  On the `FORMAT=` paths the scratch cue's times are left
as they were (the C struct member stays uninitialized). -/
def ParseMPSub (st : Pst) (sc : Cue) (_idx : Nat) : Option Cue × Pst :=
  match ParseMPSubHead (st.txt.lines.length + 1) st with
  | (none, st') => (none, st')
  | (some times, st') =>
    match mpsubBody (st'.txt.lines.length + 1) st'.txt [] with
    | (none, txt') => (none, { st' with txt := txt' })
    | (some text, txt') =>
      let (a, b) := times.getD (sc.start, sc.stop)
      (some ⟨a, b, text⟩, { st' with txt := txt' })

/-! ### JacoSub

`ParseJSS` updates the `static int i_comment, jss_time_resolution,
jss_time_shift`; they also live in `Globals`. -/

/-- The C `sscanf(s, "%d:%d:%d.%d %d:%d:%d.%d %[^\n\r]", ..) == 9`. -/
def scanJss1 (s : List Char) :
    Option ((Int × Int × Int × Int) × (Int × Int × Int × Int) × List Char) := do
  let (t1, r) ← scanHMSD '.' s
  let r := dropWs r
  let (t2, r) ← scanHMSD '.' r
  let r := dropWs r
  let (t, _) ← scanSet notCRLF r
  pure (t1, t2, t)

/-- The C `sscanf(s, "@%d @%d %[^\n\r]", ..) == 3`. -/
def scanJss2 (s : List Char) : Option (Int × Int × List Char) := do
  let r ← litc '@' s
  let (f1, r) ← scanIntC r
  let r := dropWs r
  let r ← litc '@' r
  let (f2, r) ← scanIntC r
  let r := dropWs r
  let (t, _) ← scanSet notCRLF r
  pure (f1, f2, t)

/-- The C `sscanf(body, "%*d:%d", &m)`: the assigned second integer. -/
def scanSkipColonInt (s : List Char) : Option Int := do
  let (_, r) ← scanIntC s
  let r ← litc ':' r
  let (m, _) ← scanIntC r
  pure m

/-- The C `sscanf(body, "%*d:%*d:%d", &sec)`. -/
def scanSkip2ColonInt (s : List Char) : Option Int := do
  let (_, r) ← scanIntC s
  let r ← litc ':' r
  let (_, r) ← scanIntC r
  let r ← litc ':' r
  let (sec, _) ← scanIntC r
  pure sec

/-- The C `sscanf(body, "%*d:%*d:%*d.%d", &f)`. -/
def scanSkip3DotInt (s : List Char) : Option Int := do
  let (_, r) ← scanIntC s
  let r ← litc ':' r
  let (_, r) ← scanIntC r
  let r ← litc ':' r
  let (_, r) ← scanIntC r
  let r ← litc '.' r
  let (f, _) ← scanIntC r
  pure f

/-- The C `sscanf(body, "%d:%d.%d", &m, &sec, &f)` with C partial-assignment
semantics: each argument keeps its previous value past the first failure. -/
def scanDColonDDotD (s : List Char) (m sec f : Int) : Int × Int × Int :=
  match scanIntC s with
  | none => (m, sec, f)
  | some (a, r) =>
    match litc ':' r with
    | none => (a, sec, f)
    | some r2 =>
      match scanIntC r2 with
      | none => (a, sec, f)
      | some (b, r3) =>
        match litc '.' r3 with
        | none => (a, b, f)
        | some r4 =>
          match scanIntC r4 with
          | none => (a, b, f)
          | some (c, _) => (a, b, c)

/-- The C `sscanf(body, "%d.%d", &sec, &f)` with partial-assignment semantics. -/
def scanDDotD (s : List Char) (sec f : Int) : Int × Int :=
  match scanIntC s with
  | none => (sec, f)
  | some (a, r) =>
    match litc '.' r with
    | none => (a, f)
    | some r2 =>
      match scanIntC r2 with
      | none => (a, f)
      | some (b, _) => (a, b)

/-- A `#` directive line of `ParseJSS`: `#S…` reassigns the time shift from
an optionally signed `h:m:s.f` tail (with the C code's partial-parse
fallbacks and defaults `sec = 1`, `f = 1`), `#T…` reassigns the time
resolution.  Returns the new (resolution, shift). -/
def jssDirective (s : List Char) (res shift : Int) : Int × Int :=
  let c1 := upperC (s.getD 1 '\x00')
  if c1 = 'S' then
    let off : Nat := if isAlphaC (s.getD 2 '\x00') then 6 else 2
    let body := s.drop off
    match scanIntC body with
    | none => (res, shift)
    | some (h0, _) =>
      let inv : Int := if h0 < 0 then -1 else 1
      let habs : Int := if h0 < 0 then -h0 else h0
      match scanSkipColonInt body with
      | some m0 =>
        match scanSkip2ColonInt body with
        | some sec =>
          let f := (scanSkip3DotInt body).getD 1
          (res, ((habs * 3600 + m0 * 60 + sec) * res + f) * inv)
        | none =>
          let (m1, sec1, f1) := scanDColonDDotD body m0 1 1
          (res, (((m1 * inv) * 60 + sec1) * res + f1) * inv)
      | none =>
        let (sec1, f1) := scanDDotD body 1 1
        (res, ((sec1 * inv) * res + f1) * inv)
  else if c1 = 'T' then
    let off : Nat := if isAlphaC (s.getD 2 '\x00') then 8 else 2
    match scanIntC (s.drop off) with
    | some (v, _) => (v, shift)
    | none => (res, shift)
  else (res, shift)

/-- Skip blanks: `while (*p == ' ' || *p == '\t') p++`. -/
def dropST : List Char → List Char
  | [] => []
  | c :: r => if c = ' ' ∨ c = '\t' then dropST r else c :: r

/-- The directive skip: `while (*p != ' ') p++` (stops at the space). -/
def dropUntilSpace : List Char → List Char
  | [] => []
  | c :: r => if c = ' ' then c :: r else dropUntilSpace r

/-- The JacoSub text stripper.  `'{'` opens a comment (chars dropped),
`'}'` resets the depth to zero, `'~'` and runs of blanks collapse to one
space, `\\n` becomes a line break, two-character style escapes are dropped,
escaped `~`, `{`, `\\` pass through, and a backslash at line end fetches
(and discards) the next raw line — failing with `VLC_EGENERIC` at end of
input.  The comment depth is the `static int i_comment`. -/
def jssStrip : Nat → List Char → TextT → Int → List Char →
    Option (List Char) × TextT × Int
  | 0, _, txt, com, acc => (some acc, txt, com)
  | fuel + 1, cs, txt, com, acc =>
    match cs with
    | [] => (some acc, txt, com)
    | c :: rest =>
      if c = '\n' ∨ c = '\r' then (some acc, txt, com)
      else if c = '{' then jssStrip fuel rest txt (com + 1) acc
      else if c = '}' then
        if com ≠ 0 then
          let rest' := match rest with
            | ' ' :: r2 => r2
            | _ => rest
          jssStrip fuel rest' txt 0 acc
        else jssStrip fuel rest txt com acc
      else if c = '~' then
        jssStrip fuel rest txt com (if com = 0 then acc ++ [' '] else acc)
      else if c = ' ' ∨ c = '\t' then
        match rest with
        | ' ' :: _ => jssStrip fuel rest txt com acc
        | '\t' :: _ => jssStrip fuel rest txt com acc
        | _ => jssStrip fuel rest txt com (if com = 0 then acc ++ [' '] else acc)
      else if c = '\\' then
        match rest with
        | 'n' :: r2 => jssStrip fuel r2 txt com (acc ++ ['\n'])
        | c2 :: r2 =>
          if upperC c2 = 'C' ∨ upperC c2 = 'F' then
            jssStrip fuel (r2.drop 1) txt com acc
          else if c2 = 'B' ∨ c2 = 'b' ∨ c2 = 'I' ∨ c2 = 'i' ∨
                  c2 = 'U' ∨ c2 = 'u' ∨ c2 = 'D' ∨ c2 = 'N' then
            jssStrip fuel r2 txt com acc
          else if c2 = '~' ∨ c2 = '{' ∨ c2 = '\\' then
            jssStrip fuel r2 txt com (if com = 0 then acc ++ [c2] else acc)
          else if c2 = '\r' ∨ c2 = '\n' then
            match TextGetLine txt with
            | (none, txt') => (none, txt', com)
            | (some _, txt') =>
              jssStrip fuel rest txt' com (if com = 0 then acc ++ ['\\'] else acc)
          else
            jssStrip fuel rest txt com (if com = 0 then acc ++ ['\\'] else acc)
        | [] =>
          match TextGetLine txt with
          | (none, txt') => (none, txt', com)
          | (some _, txt') =>
            jssStrip fuel rest txt' com (if com = 0 then acc ++ ['\\'] else acc)
      else
        jssStrip fuel rest txt com (if com = 0 then acc ++ [c] else acc)

/-- The tail of a successful `ParseJSS` time match: skip blanks, skip an
unparsed directive word, skip blanks again, then run the stripper. -/
def jssFinish (st : Pst) (start stop : Int) (t : List Char) : Option Cue × Pst :=
  let t1 := dropST t
  let t2 :=
    if isAlphaC (t1.getD 0 '\x00') ∨ t1.getD 0 '\x00' = '[' then dropUntilSpace t1
    else t1
  let t3 := dropST t2
  match jssStrip (t3.length + 1) t3 st.txt st.g.jssComment [] with
  | (none, txt', com') =>
    (none, { st with txt := txt', g := { st.g with jssComment := com' } })
  | (some text, txt', com') =>
    (some ⟨start, stop, text⟩,
     { st with txt := txt', g := { st.g with jssComment := com' } })

def ParseJSSAux : Nat → Pst → Option Cue × Pst
  | 0, st => (none, st)
  | fuel + 1, st =>
    match TextGetLine st.txt with
    | (none, txt') => (none, { st with txt := txt' })
    | (some s, txt') =>
      let st := { st with txt := txt' }
      match scanJss1 s with
      | some (t1, t2, t) =>
        let start := ((t1.1 * 3600 + t1.2.1 * 60 + t1.2.2.1) +
          Int.tdiv (t1.2.2.2 + st.g.jssShift) st.g.jssResolution) * 1000000
        let stop := ((t2.1 * 3600 + t2.2.1 * 60 + t2.2.2.1) +
          Int.tdiv (t2.2.2.2 + st.g.jssShift) st.g.jssResolution) * 1000000
        jssFinish st start stop t
      | none =>
        match scanJss2 s with
        | some (f1, f2, t) =>
          let start := Int.tdiv (f1 + st.g.jssShift) st.g.jssResolution * 1000000
          let stop := Int.tdiv (f2 + st.g.jssShift) st.g.jssResolution * 1000000
          jssFinish st start stop t
        | none =>
          if s.getD 0 '\x00' = '#' then
            let (res', shift') := jssDirective s st.g.jssResolution st.g.jssShift
            ParseJSSAux fuel
              { st with g := { st.g with jssResolution := res', jssShift := shift' } }
          else ParseJSSAux fuel st

def ParseJSS (st : Pst) (_sc : Cue) (_idx : Nat) : Option Cue × Pst :=
  ParseJSSAux (st.txt.lines.length + 1) st

/-! ## The Cue Assembler and `Open` -/

/-- One entry of `sub_read_subtitle_function`. -/
structure SubTableRow where
  typeName : List Char
  typ : SubType
  read : Pst → Cue → Nat → Option Cue × Pst

/-- The C `sub_read_subtitle_function`, in source order (without the NULL
sentinel). -/
def subTable : List SubTableRow :=
  [ ⟨"microdvd".toList, .microdvd, ParseMicroDvd⟩,
    ⟨"subrip".toList, .subrip, ParseSubRip⟩,
    ⟨"subviewer".toList, .subviewer, ParseSubViewer⟩,
    ⟨"ssa1".toList, .ssa1, ParseSSAEntry⟩,
    ⟨"ssa2-4".toList, .ssa2_4, ParseSSAEntry⟩,
    ⟨"ass".toList, .ass, ParseSSAEntry⟩,
    ⟨"vplayer".toList, .vplayer, ParseVplayer⟩,
    ⟨"sami".toList, .sami, ParseSami⟩,
    ⟨"dvdsubtitle".toList, .dvdsubtitle, ParseDVDSubtitle⟩,
    ⟨"mpl2".toList, .mpl2, ParseMPL2⟩,
    ⟨"aqt".toList, .aqt, ParseAQT⟩,
    ⟨"pjs".toList, .pjs, ParsePJS⟩,
    ⟨"mpsub".toList, .mpsub, ParseMPSub⟩,
    ⟨"jacosub".toList, .jacosub, ParseJSS⟩ ]

/-- The forced-type lookup in `Open`: an empty or unrecognized `sub-type`
value (including `"auto"`, which is not in the table) leaves the type
unknown. -/
def lookupTypeName (name : List Char) : SubType :=
  if name = [] then .unknown
  else
    match subTable.find? (fun row => row.typeName = name) with
    | some row => row.typ
    | none => .unknown

/-- The reader selected for a resolved type (the second table walk in
`Open`; it never runs for `unknown`, which `Open` rejects first). -/
def dispatchRead (t : SubType) : Pst → Cue → Nat → Option Cue × Pst :=
  match subTable.find? (fun row => row.typ = t) with
  | some row => row.read
  | none => fun st _ _ => (none, st)

/-- The parse loop of `Open`: call the reader until it fails, appending each
cue; the reader receives the running cue count as its index. -/
def parseLoop (pf : Pst → Cue → Nat → Option Cue × Pst) (sc : Cue) :
    Nat → Pst → List Cue → List Cue × Pst
  | 0, st, acc => (acc.reverse, st)
  | fuel + 1, st, acc =>
    match pf st sc acc.length with
    | (none, st') => (acc.reverse, st')
    | (some c, st') => parseLoop pf sc fuel st' (c :: acc)

/-- The total-duration computation at the end of `Open`:
`i_length` is the last cue's stop, or its start + 1 when that stop is
non-positive; 0 when no cues were parsed. -/
def openComputeLength (subs : List Cue) : Int :=
  match subs.getLast? with
  | none => 0
  | some last => if last.stop ≤ 0 then last.start + 1 else last.stop

/-- What a successful `Open` leaves in `demux_sys_t` for the caller. -/
structure OpenResult where
  subs : List Cue
  header : Option (List Char)
  length : Int
deriving DecidableEq, Repr

/-- The C `Open`, from the fps handling down to the length computation.
`subTypeName` is the `sub-type` variable, `origFps` the
`sub-original-fps` variable and `subFps` the `sub-fps` variable;
`g` holds the process statics on entry and the second component returns
them on exit.  Note that the result of `TextLoad` is not checked: an empty
stream still reaches the parse loop (with an empty line table) and `Open`
succeeds with zero cues. -/
def openRun (subTypeName : String) (streamLines : List (List Char))
    (origFps subFps : QF) (g : Globals) (sc : Cue) :
    Option OpenResult × Globals :=
  let mspf : Int := if 1 ≤ origFps then truncQ (1000000 / origFps) else 40000
  let mspf : Int := if 1 ≤ subFps then truncQ (1000000 / subFps) else mspf
  let t0 := lookupTypeName subTypeName.toList
  let t := if t0 = .unknown then probe streamLines else t0
  if t = .unknown then (none, g)
  else
    let txt : TextT := ⟨streamLines, 0⟩
    let st : Pst := ⟨txt, mspf, none, t, subFps, g⟩
    let (subs, st') := parseLoop (dispatchRead t) sc (streamLines.length + 2) st []
    (some ⟨subs, st'.header, openComputeLength subs⟩, st'.g)

/-! ## The Timeline Index (`Control`) -/

/-- The part of `demux_sys_t` that `Control` reads: the cue sequence, the
current index `i_subtitle` and the precomputed `i_length`. -/
structure DemuxState where
  subs : List Cue
  iSubtitle : Nat
  length : Int
deriving DecidableEq, Repr

/-- The state `Open` hands to `Control`: `i_subtitle = 0` and `i_length`
from the cue list. -/
def mkDemuxState (subs : List Cue) : DemuxState :=
  ⟨subs, 0, openComputeLength subs⟩

/-- The C `DEMUX_GET_LENGTH`: returns `i_length`. -/
def controlGetLength (st : DemuxState) : Int := st.length

/-- The scan `i_subtitle = 0; while (i_subtitle < n && start < i64) i_subtitle++`
shared by `DEMUX_SET_TIME` and `DEMUX_SET_POSITION`. -/
def scanIdx : List Cue → Int → Nat
  | [], _ => 0
  | c :: r, q => if c.start < q then scanIdx r q + 1 else 0

/-- The C `DEMUX_SET_TIME`: reposition at the scan result; `VLC_EGENERIC` (false)
when it ran past every cue. -/
def controlSetTime (st : DemuxState) (q : Int) : DemuxState × Bool :=
  let i := scanIdx st.subs q
  ({ st with iSubtitle := i }, decide (i < st.subs.length))

/-- The C `DEMUX_SET_POSITION`: `i64 = f * i_length` (the double product truncated
to `int64_t`), then the same scan. -/
def controlSetPosition (st : DemuxState) (f : QF) : DemuxState × Bool :=
  controlSetTime st (truncQ (f * qof st.length))

/-! ## Auxiliary definitions for the statements -/

/-- Shorthand to write a C string. -/
def strL (s : String) : List Char := s.toList

/-- The duration in the spec's words: the last cue's stop, or its start + 1
if that stop is non-positive; 0 for zero cues. -/
def specDuration (subs : List Cue) : Int :=
  match subs.getLast? with
  | none => 0
  | some last => if 0 < last.stop then last.stop else last.start + 1

/-- The two Line Cursor operations a parser may issue. -/
inductive CursorOp
  | next
  | pushback
deriving DecidableEq, Repr

def applyOp (t : TextT) : CursorOp → TextT
  | .next => (TextGetLine t).2
  | .pushback => TextPreviousLine t

def applyOps (t : TextT) (ops : List CursorOp) : TextT := ops.foldl applyOp t

/-- The MPSub sample file used to exhibit the cross-session leak. -/
def mpsubLines : List (List Char) :=
  [strL "FORMAT=TIME", strL "", strL "1 2", strL "x", strL ""]

/-- A JacoSub session that only executes a `#T100` resolution directive. -/
def jssDirLines : List (List Char) := [strL "#T100"]

/-- A JacoSub session with one `@`-timed cue. -/
def jssCueLines : List (List Char) := [strL "@400 @600 123"]

/-- The MicroDVD sample of the spec: a frame-rate declaration line then one
cue line. -/
def microDvdLines : List (List Char) :=
  [strL "{1}{1}23.976", strL "{100}{200}Hello"]

/-- The SubRip sample of the spec. -/
def subRipLines : List (List Char) :=
  [strL "00:00:01,000 --> 00:00:02,500", strL "Line one", strL "Line two", strL ""]

/-- A one-line SAMI input for the witness. -/
def samiSt : Pst :=
  ⟨⟨[strL "<SYNC Start=1000><P>Hello"], 0⟩, 40000, none, .sami, 0, procGlobals⟩

/-- An ASS session state holding a single Dialogue line whose marker field
is 10 characters wide. -/
def ssaTruncSt : Pst :=
  ⟨⟨[strL "Dialogue: 2147483647,0:00:01.00,0:00:02.00,Style,Name,0,0,0,,Payload"], 0⟩,
   40000, none, .ass, 0, procGlobals⟩

/-- An SSA2-4 session state with one header line before one Dialogue line. -/
def ssaWitSt : Pst :=
  ⟨⟨[strL "ScriptType: v4.00",
     strL "Dialogue: Marked=0,0:00:01.00,0:00:02.00,S,N,0,0,0,,Hi"], 0⟩,
   40000, none, .ssa2_4, 0, procGlobals⟩

/-! ## Shared lemmas -/

theorem applyOp_bounds (t : TextT) (op : CursorOp) (h0 : 0 ≤ t.iLine)
    (h1 : t.iLine ≤ (t.lines.length : Int)) :
    0 ≤ (applyOp t op).iLine ∧ (applyOp t op).iLine ≤ ((applyOp t op).lines.length : Int) := by
  cases op with
  | next =>
    by_cases h : (t.lines.length : Int) ≤ t.iLine
    · simp only [applyOp, TextGetLine, if_pos h]
      exact ⟨h0, h1⟩
    · simp only [applyOp, TextGetLine, if_neg h]
      exact ⟨show (0 : Int) ≤ t.iLine + 1 by omega,
             show t.iLine + 1 ≤ (t.lines.length : Int) by omega⟩
  | pushback =>
    by_cases h : 0 < t.iLine
    · simp only [applyOp, TextPreviousLine, if_pos h]
      exact ⟨show (0 : Int) ≤ t.iLine - 1 by omega,
             show t.iLine - 1 ≤ (t.lines.length : Int) by omega⟩
    · simp only [applyOp, TextPreviousLine, if_neg h]
      exact ⟨h0, h1⟩

theorem applyOps_bounds (ops : List CursorOp) : ∀ (t : TextT),
    0 ≤ t.iLine → t.iLine ≤ (t.lines.length : Int) →
    0 ≤ (applyOps t ops).iLine ∧
      (applyOps t ops).iLine ≤ ((applyOps t ops).lines.length : Int) := by
  induction ops with
  | nil => intro t h0 h1; exact ⟨h0, h1⟩
  | cons op ops ih =>
    intro t h0 h1
    have step := applyOp_bounds t op h0 h1
    exact ih (applyOp t op) step.1 step.2

theorem scanIdx_cons (c : Cue) (r : List Cue) (q : Int) :
    scanIdx (c :: r) q = if c.start < q then scanIdx r q + 1 else 0 := rfl

theorem scanIdx_before (q : Int) : ∀ (subs : List Cue) (j : Nat),
    j < scanIdx subs q → (subs.getD j cue0).start < q := by
  intro subs
  induction subs with
  | nil => intro j h; simp [scanIdx] at h
  | cons c r ih =>
    intro j h
    rw [scanIdx_cons] at h
    by_cases hc : c.start < q
    · rw [if_pos hc] at h
      cases j with
      | zero => simpa using hc
      | succ k =>
        rw [List.getD_cons_succ]
        exact ih k (by omega)
    · rw [if_neg hc] at h
      omega

theorem scanIdx_at (q : Int) : ∀ subs : List Cue,
    scanIdx subs q < subs.length → q ≤ (subs.getD (scanIdx subs q) cue0).start := by
  intro subs
  induction subs with
  | nil => intro h; simp [scanIdx] at h
  | cons c r ih =>
    intro h
    by_cases hc : c.start < q
    · have he : scanIdx (c :: r) q = scanIdx r q + 1 := by
        rw [scanIdx_cons, if_pos hc]
      rw [he, List.getD_cons_succ]
      rw [he] at h
      exact ih (by simpa using h)
    · have he : scanIdx (c :: r) q = 0 := by
        rw [scanIdx_cons, if_neg hc]
      rw [he]
      simpa using (by omega : q ≤ c.start)

theorem scanIdx_last : ∀ (subs : List Cue)
    (_ : subs.Pairwise (fun a b => a.start < b.start)) (hne : subs ≠ []),
    scanIdx subs (subs.getLast hne).start = subs.length - 1 := by
  intro subs
  induction subs with
  | nil => intro _ hne; exact absurd rfl hne
  | cons c r ih =>
    intro hp hne
    cases r with
    | nil =>
      rw [scanIdx_cons, if_neg (by simp [List.getLast])]
      rfl
    | cons c2 r2 =>
      have hlast : (c :: c2 :: r2).getLast hne = (c2 :: r2).getLast (by simp) :=
        List.getLast_cons _
      obtain ⟨hc, hp'⟩ := List.pairwise_cons.mp hp
      have hmem := List.getLast_mem (show c2 :: r2 ≠ [] by simp)
      have hcl : c.start < ((c2 :: r2).getLast (by simp)).start := hc _ hmem
      rw [hlast, scanIdx_cons, if_pos hcl, ih hp' (by simp)]
      simp

theorem scanIdx_past : ∀ (subs : List Cue) (q : Int)
    (_ : subs.Pairwise (fun a b => a.start < b.start)) (hne : subs ≠ []),
    (subs.getLast hne).start < q → scanIdx subs q = subs.length := by
  intro subs
  induction subs with
  | nil => intro q _ hne; exact absurd rfl hne
  | cons c r ih =>
    intro q hp hne hq
    obtain ⟨hc, hp'⟩ := List.pairwise_cons.mp hp
    cases r with
    | nil =>
      rw [scanIdx_cons, if_pos (by simpa [List.getLast] using hq)]
      rfl
    | cons c2 r2 =>
      have hlast : (c :: c2 :: r2).getLast hne = (c2 :: r2).getLast (by simp) :=
        List.getLast_cons _
      rw [hlast] at hq
      have hmem := List.getLast_mem (show c2 :: r2 ≠ [] by simp)
      have hcq : c.start < q := lt_trans (hc _ hmem) hq
      rw [scanIdx_cons, if_pos hcq, ih q hp' (by simp) hq]
      rfl

theorem samiAppend_le (acc : List Char) (c : Char) (h : acc.length ≤ 8191) :
    (samiAppend acc c).length ≤ 8191 := by
  unfold samiAppend
  split
  · rename_i hcond
    obtain ⟨-, h2⟩ := hcond
    simp only [List.length_append, List.length_cons, List.length_nil]
    omega
  · exact h

theorem parseSamiLoop_le : ∀ (fuel : Nat) (s : Option (List Char)) (txt : TextT)
    (acc : List Char), acc.length ≤ 8191 →
    ((ParseSamiLoop fuel s txt acc).1).length ≤ 8191 := by
  intro fuel
  induction fuel with
  | zero => intro s txt acc h; simpa [ParseSamiLoop] using h
  | succ n ih =>
    intro s txt acc h
    match s with
    | none => simpa [ParseSamiLoop] using h
    | some [] => exact ih _ _ _ h
    | some (c :: cs) =>
      simp only [ParseSamiLoop]
      split_ifs
      · exact ih _ _ _ (samiAppend_le acc '\n' h)
      · simpa using h
      · exact ih _ _ _ h
      · exact ih _ _ _ (samiAppend_le acc ' ' h)
      · exact ih _ _ _ (samiAppend_le acc ' ' h)
      · exact ih _ _ _ (samiAppend_le acc c h)

theorem probeGo_take : ∀ (fuel : Nat) (cur : SubType) (ls : List (List Char)),
    probeGo fuel cur ls = probeGo fuel cur (ls.take fuel) := by
  intro fuel
  induction fuel with
  | zero => intro cur ls; cases ls <;> rfl
  | succ n ih =>
    intro cur ls
    cases ls with
    | nil => rfl
    | cons l rest =>
      rw [List.take_succ_cons]
      cases h : probeLine l with
      | none =>
        simp only [probeGo, h]
        exact ih cur rest
      | some tb =>
        rcases tb with ⟨t, b⟩
        cases b
        · simp only [probeGo, h]
          exact ih t rest
        · simp only [probeGo, h]

theorem find_first (p : SigRow → Bool) : ∀ (rows : List SigRow) (i : Nat),
    i < rows.length → (∀ j, j < i → p (rows.getD j sigDefault) = false) →
    p (rows.getD i sigDefault) = true →
    rows.find? p = some (rows.getD i sigDefault) := by
  intro rows
  induction rows with
  | nil => intro i h; simp at h
  | cons r rs ih =>
    intro i hi hj hp
    cases i with
    | zero =>
      rw [List.getD_cons_zero] at hp
      rw [List.getD_cons_zero]
      exact List.find?_cons_of_pos _ hp
    | succ k =>
      have h0 : p r = false := by
        have := hj 0 (by omega)
        simpa using this
      rw [List.getD_cons_succ] at hp
      rw [List.getD_cons_succ, List.find?_cons_of_neg _ (by simp [h0])]
      refine ih k (by simpa using hi) ?_ hp
      intro j hjk
      have := hj (j + 1) (by omega)
      simpa using this

theorem probeGo_strong : ∀ (pre : List (List Char)) (fuel : Nat) (cur : SubType)
    (l : List Char) (rest : List (List Char)) (f : SubType),
    (∀ x ∈ pre, (probeLine x).map Prod.snd ≠ some true) →
    probeLine l = some (f, true) → pre.length < fuel →
    probeGo fuel cur (pre ++ l :: rest) = f := by
  intro pre
  induction pre with
  | nil =>
    intro fuel cur l rest f _ hl hf
    match fuel, hf with
    | n + 1, _ =>
      simp only [List.nil_append, probeGo, hl]
  | cons x pre' ih =>
    intro fuel cur l rest f hw hl hf
    match fuel, hf with
    | n + 1, hf =>
      have hx := hw x (by simp)
      cases hx2 : probeLine x with
      | none =>
        simp only [List.cons_append, probeGo, hx2]
        exact ih n cur l rest f (fun y hy => hw y (by simp [hy])) hl (by simpa using hf)
      | some tb =>
        rcases tb with ⟨t, b⟩
        cases b
        · simp only [List.cons_append, probeGo, hx2]
          exact ih n t l rest f (fun y hy => hw y (by simp [hy])) hl (by simpa using hf)
        · exact absurd (by rw [hx2]; rfl) hx

theorem probeGo_none : ∀ (fuel : Nat) (cur : SubType) (ls : List (List Char)),
    (∀ x ∈ ls.take fuel, probeLine x = none) → probeGo fuel cur ls = cur := by
  intro fuel
  induction fuel with
  | zero => intro cur ls _; cases ls <;> rfl
  | succ n ih =>
    intro cur ls h
    cases ls with
    | nil => rfl
    | cons l rest =>
      have hl : probeLine l = none := h l (by simp)
      simp only [probeGo, hl]
      refine ih cur rest ?_
      intro x hx
      refine h x ?_
      rw [List.take_succ_cons]
      exact List.mem_cons_of_mem _ hx

theorem drop_cons_getD {α : Type} (d : α) : ∀ (n : Nat) (ls : List α) (x : α)
    (xs : List α), ls.drop n = x :: xs →
    ls.getD n d = x ∧ n < ls.length ∧ ls.drop (n + 1) = xs := by
  intro n
  induction n with
  | zero =>
    intro ls x xs h
    rw [List.drop_zero] at h
    subst h
    exact ⟨rfl, by simp, by simp⟩
  | succ k ih =>
    intro ls x xs h
    cases ls with
    | nil => simp at h
    | cons a t =>
      have h' : t.drop k = x :: xs := by simpa using h
      obtain ⟨h1, h2, h3⟩ := ih t x xs h'
      refine ⟨by simpa using h1, by simp; omega, by simpa using h3⟩

theorem textGetLine_drop (t : TextT) (x : List Char) (xs : List (List Char))
    (h0 : 0 ≤ t.iLine) (h : t.lines.drop t.iLine.toNat = x :: xs) :
    TextGetLine t = (some x, ⟨t.lines, t.iLine + 1⟩) ∧
    (t.iLine + 1).toNat = t.iLine.toNat + 1 ∧
    t.lines.drop ((t.iLine + 1).toNat) = xs := by
  obtain ⟨h1, h2, h3⟩ := drop_cons_getD [] t.iLine.toNat t.lines x xs h
  have ht : (t.iLine + 1).toNat = t.iLine.toNat + 1 := by omega
  refine ⟨?_, ht, by rw [ht]; exact h3⟩
  unfold TextGetLine
  rw [if_neg (by omega), h1]

theorem openComputeLength_eq_spec (subs : List Cue) :
    openComputeLength subs = specDuration subs := by
  unfold openComputeLength specDuration
  cases subs.getLast? with
  | none => rfl
  | some last =>
    by_cases h : last.stop ≤ 0
    · simp only [if_pos h, if_neg (show ¬0 < last.stop by omega)]
    · simp only [if_neg h, if_pos (show 0 < last.stop by omega)]

end Subtitle

namespace Subtitle

/-! ## The claims -/

/-- C1: the claim asserts that the MPSub running total/factor and the
JacoSub shift/resolution/comment depth are per-session state, every new
session starting from the defaults (total 0, resolution 30).  The code
keeps them in C `static` variables, so they leak across sessions: after an
MPSub session whose cues end with a running total of 300, a second session
over the very same file starts its first data cue at 4,000,000 µs instead
of the 1,000,000 µs a fresh session produces; likewise a JacoSub session
that only ran a `#T100` directive makes the next session time `@400` at
4,000,000 µs instead of the 13,000,000 µs the default resolution 30
gives. -/
theorem mpsub_jss_state_is_process_wide :
    ((openRun "mpsub" mpsubLines 0 0 procGlobals cue0).1.map
        (fun r => (r.subs.getD 1 cue0).start) = some 1000000) ∧
    (openRun "mpsub" mpsubLines 0 0 procGlobals cue0).2.mpsubTotal = ⟨300, 1⟩ ∧
    ((openRun "mpsub" mpsubLines 0 0
        ((openRun "mpsub" mpsubLines 0 0 procGlobals cue0).2) cue0).1.map
      (fun r => (r.subs.getD 1 cue0).start) = some 4000000) ∧
    ((openRun "jacosub" jssCueLines 0 0 procGlobals cue0).1.map
        (fun r => (r.subs.getD 0 cue0).start) = some 13000000) ∧
    (openRun "jacosub" jssDirLines 0 0 procGlobals cue0).2.jssResolution = 100 ∧
    ((openRun "jacosub" jssCueLines 0 0
        ((openRun "jacosub" jssDirLines 0 0 procGlobals cue0).2) cue0).1.map
      (fun r => (r.subs.getD 0 cue0).start) = some 4000000) := by
  refine ⟨?_, ?_, ?_, ?_, ?_, ?_⟩ <;> decide

/-- C2: `TextLoad` does fail (`VLC_EGENERIC`) on an input with zero lines,
but `Open` never checks that result: with a forced format (here
`sub-type "subrip"`), an empty stream makes `Open` succeed with an empty
cue sequence and duration 0 instead of reporting the load failure. -/
theorem open_ignores_empty_input_load_failure :
    TextLoad ([] : List (List Char)) = none ∧
    (openRun "subrip" [] 0 0 procGlobals cue0).1 = some ⟨[], none, 0⟩ := by
  constructor <;> decide

/-- C4: on `{1}{1}23.976` then `{100}{200}Hello` with no fps override, the
session yields exactly one cue, whose start is 100 × the truncated frame
duration 1000000/23.976 = 41708 µs, i.e. 4,170,800 µs, with text
`"Hello"`; the declaration line emits no cue.  With an fps override set
(`sub-fps 25`), the declaration line is still consumed without a cue but
the declared rate no longer replaces the frame duration. -/
theorem microdvd_framerate_declaration :
    usStrtodQ (strL "23.976") = ⟨23976, 1000⟩ ∧
    truncQ (1000000 / usStrtodQ (strL "23.976")) = 41708 ∧
    (openRun "microdvd" microDvdLines 0 0 procGlobals cue0).1 =
      some ⟨[⟨100 * truncQ (1000000 / usStrtodQ (strL "23.976")),
              200 * truncQ (1000000 / usStrtodQ (strL "23.976")), strL "Hello"⟩],
            none, 8341600⟩ ∧
    (openRun "microdvd" microDvdLines 0 25 procGlobals cue0).1 =
      some ⟨[⟨100 * 40000, 200 * 40000, strL "Hello"⟩], none, 8000000⟩ := by
  refine ⟨?_, ?_, ?_, ?_⟩ <;> decide

/-- C5: the SubRip sample `00:00:01,000 --> 00:00:02,500`, `Line one`,
`Line two`, blank line parses to exactly one cue with start 1,000,000 µs,
stop 2,500,000 µs and text `"Line one\nLine two\n"`. -/
theorem subrip_sample_cue :
    (openRun "subrip" subRipLines 0 0 procGlobals cue0).1 =
      some ⟨[⟨1000000, 2500000,
              strL "Line one" ++ ['\n'] ++ strL "Line two" ++ ['\n']⟩],
            none, 2500000⟩ := by
  decide

/-- C7: the duration computed at the end of `Open` is the last cue's stop,
or the last cue's start + 1 when that stop is non-positive, and 0 for zero
cues; `DEMUX_GET_LENGTH` returns exactly this value. -/
theorem timeline_duration_eq_spec (subs : List Cue) :
    openComputeLength subs = specDuration subs ∧
    controlGetLength (mkDemuxState subs) = specDuration subs ∧
    openComputeLength [] = 0 := by
  have h := openComputeLength_eq_spec subs
  exact ⟨h, h, rfl⟩

/-- C10: the Line Cursor position stays within `[0, line count]` under any
sequence of `Next`/`PushBack` calls; `Next` at the end returns NULL without
moving the cursor, and `PushBack` at position 0 is a no-op. -/
theorem line_cursor_bounds :
    (∀ (t : TextT) (ops : List CursorOp),
       0 ≤ t.iLine → t.iLine ≤ (t.lines.length : Int) →
       0 ≤ (applyOps t ops).iLine ∧
         (applyOps t ops).iLine ≤ ((applyOps t ops).lines.length : Int)) ∧
    (∀ t : TextT, (t.lines.length : Int) ≤ t.iLine → TextGetLine t = (none, t)) ∧
    (∀ t : TextT, t.iLine = 0 → TextPreviousLine t = t) := by
  refine ⟨fun t ops h0 h1 => applyOps_bounds ops t h0 h1, ?_, ?_⟩
  · intro t h
    unfold TextGetLine
    rw [if_pos h]
  · intro t h
    unfold TextPreviousLine
    rw [if_neg (by omega)]

/-- C8: the `DEMUX_SET_TIME` scan stops at the first cue whose start is at
least the query (every skipped cue starts earlier, and the cue it lands on
— when in range — starts at or after the query); with increasing starts a
query at the last cue's start lands on index N−1 and succeeds, a query
past the last start runs off the end and fails with `VLC_EGENERIC`; and
`DEMUX_SET_POSITION` is exactly the same scan at query
`fraction × duration` (truncated to `int64_t`). -/
theorem timeline_seek_first_at_or_after :
    (∀ (subs : List Cue) (q : Int) (j : Nat),
       j < scanIdx subs q → (subs.getD j cue0).start < q) ∧
    (∀ (subs : List Cue) (q : Int),
       scanIdx subs q < subs.length → q ≤ (subs.getD (scanIdx subs q) cue0).start) ∧
    (∀ (st : DemuxState)
       (_ : st.subs.Pairwise (fun a b => a.start < b.start)) (hne : st.subs ≠ []),
       controlSetTime st (st.subs.getLast hne).start =
         ({ st with iSubtitle := st.subs.length - 1 }, true)) ∧
    (∀ (st : DemuxState) (q : Int)
       (_ : st.subs.Pairwise (fun a b => a.start < b.start)) (hne : st.subs ≠ []),
       (st.subs.getLast hne).start < q → (controlSetTime st q).2 = false) ∧
    (∀ (st : DemuxState) (f : QF),
       controlSetPosition st f = controlSetTime st (truncQ (f * qof st.length))) := by
  refine ⟨fun subs q j h => scanIdx_before q subs j h,
          fun subs q h => scanIdx_at q subs h, ?_, ?_, fun _ _ => rfl⟩
  · intro st hp hne
    unfold controlSetTime
    rw [scanIdx_last st.subs hp hne]
    have hlen : 0 < st.subs.length := List.length_pos.mpr hne
    have hlt : st.subs.length - 1 < st.subs.length := Nat.sub_lt hlen (by omega)
    simp [hlt]
  · intro st q hp hne hq
    unfold controlSetTime
    rw [scanIdx_past st.subs q hp hne hq]
    simp

/-- Witness for C8: on cues starting at 10 and 20, a query at 20 lands on
index 1 with success, a query at 25 fails, the skipped cue starts before
the query, the landing cue starts at or after it, and the fractional seek
agrees with the time seek. -/
theorem timeline_seek_first_at_or_after_witness :
    controlSetTime ⟨[⟨10, 11, []⟩, ⟨20, 21, []⟩], 0, 21⟩ 20 =
      (⟨[⟨10, 11, []⟩, ⟨20, 21, []⟩], 1, 21⟩, true) ∧
    (controlSetTime ⟨[⟨10, 11, []⟩, ⟨20, 21, []⟩], 0, 21⟩ 25).2 = false ∧
    (([⟨10, 11, []⟩, ⟨20, 21, []⟩] : List Cue).getD 0 cue0).start < 20 ∧
    (20 : Int) ≤ (([⟨10, 11, []⟩, ⟨20, 21, []⟩] : List Cue).getD
      (scanIdx [⟨10, 11, []⟩, ⟨20, 21, []⟩] 20) cue0).start ∧
    controlSetPosition ⟨[⟨10, 11, []⟩, ⟨20, 21, []⟩], 0, 21⟩ ⟨1, 2⟩ =
      controlSetTime ⟨[⟨10, 11, []⟩, ⟨20, 21, []⟩], 0, 21⟩
        (truncQ (⟨1, 2⟩ * qof 21)) := by
  refine ⟨?_, ?_, ?_, ?_, ?_⟩
  · exact (timeline_seek_first_at_or_after.2.2.1 ⟨[⟨10, 11, []⟩, ⟨20, 21, []⟩], 0, 21⟩
      (by constructor <;> simp) (by simp)).trans (by decide)
  · exact timeline_seek_first_at_or_after.2.2.2.1 ⟨[⟨10, 11, []⟩, ⟨20, 21, []⟩], 0, 21⟩ 25
      (by constructor <;> simp) (by simp) (by decide)
  · exact timeline_seek_first_at_or_after.1 [⟨10, 11, []⟩, ⟨20, 21, []⟩] 20 0 (by decide)
  · exact timeline_seek_first_at_or_after.2.1 [⟨10, 11, []⟩, ⟨20, 21, []⟩] 20 (by decide)
  · exact timeline_seek_first_at_or_after.2.2.2.2 ⟨[⟨10, 11, []⟩, ⟨20, 21, []⟩], 0, 21⟩ ⟨1, 2⟩

/-- C3: format auto-detection reads at most the first 256 lines; the
signature table carries exactly the stated formats in the stated order
with JacoSub, MPSub, AQTitle and PJS as the weak rows; within one line the
first matching row of the chain wins; a strong match on a line preceded
only by weak-or-no matches settles the scan regardless of later lines; a
weak match merely replaces the tentative result and the scan continues;
no match at all within 256 lines leaves the result Unknown, and an
Unknown probe makes `Open` fail instead of guessing. -/
theorem prober_table_and_scan :
    (∀ ls, probe ls = probe (ls.take 256)) ∧
    (sigTable.map (fun r => (r.fmt, r.strong)) =
      [(.sami, true), (.microdvd, true), (.subrip, true), (.ssa1, true),
       (.ass, true), (.ssa2_4, true), (.ssa2_4, true), (.ass, true),
       (.subviewer, true), (.jacosub, false), (.vplayer, true),
       (.dvdsubtitle, true), (.mpl2, true), (.mpsub, false), (.aqt, false),
       (.pjs, false)]) ∧
    (∀ (s : List Char) (i : Nat), i < sigTable.length →
       (∀ j, j < i → (sigTable.getD j sigDefault).test s = false) →
       (sigTable.getD i sigDefault).test s = true →
       probeLine s =
         some ((sigTable.getD i sigDefault).fmt, (sigTable.getD i sigDefault).strong)) ∧
    (∀ (pre : List (List Char)) (l : List Char) (rest : List (List Char)) (f : SubType),
       (∀ x ∈ pre, (probeLine x).map Prod.snd ≠ some true) →
       probeLine l = some (f, true) → pre.length < 256 →
       probe (pre ++ l :: rest) = f) ∧
    (∀ (n : Nat) (cur : SubType) (l : List Char) (rest : List (List Char)) (t : SubType),
       probeLine l = some (t, false) →
       probeGo (n + 1) cur (l :: rest) = probeGo n t rest) ∧
    (∀ ls, (∀ x ∈ ls.take 256, probeLine x = none) → probe ls = .unknown) ∧
    (∀ (ls : List (List Char)) (g : Globals) (sc : Cue) (origFps subFps : QF),
       probe ls = .unknown → (openRun "auto" ls origFps subFps g sc).1 = none) := by
  refine ⟨fun ls => probeGo_take 256 .unknown ls, by rfl, ?_, ?_, ?_, ?_, ?_⟩
  · intro s i hi hj hp
    unfold probeLine
    rw [find_first (fun row => row.test s) sigTable i hi hj hp]
    rfl
  · intro pre l rest f hw hl hf
    exact probeGo_strong pre 256 .unknown l rest f hw hl hf
  · intro n cur l rest t hl
    simp only [probeGo, hl]
  · intro ls h
    exact probeGo_none 256 .unknown ls h
  · intro ls g sc origFps subFps h
    have hlk : lookupTypeName ("auto".toList) = SubType.unknown := by decide
    simp only [openRun, hlk, h]
    simp

/-- Witness for C3: lines that match individual rows; a weak JacoSub line
followed by a strong VPlayer line settles on VPlayer; plain prose probes
Unknown, and `Open` in auto mode rejects it. -/
theorem prober_table_and_scan_witness :
    probeLine (strL "<SAMI>") = some (.sami, true) ∧
    probe [strL "@1 @2 x", strL "1:2:3 hi"] = .vplayer ∧
    probeGo 256 .unknown [strL "@1 @2 x"] = probeGo 255 .jacosub [] ∧
    probe [strL "plain prose"] = .unknown ∧
    (openRun "auto" [strL "plain prose"] 0 0 procGlobals cue0).1 = none := by
  refine ⟨?_, ?_, ?_, ?_, ?_⟩
  · exact (prober_table_and_scan.2.2.1 (strL "<SAMI>") 0 (by decide)
      (fun j hj => absurd hj (by omega)) (by decide)).trans (by rfl)
  · exact prober_table_and_scan.2.2.2.1 [strL "@1 @2 x"] (strL "1:2:3 hi") []
      .vplayer (by decide) (by decide) (by decide)
  · exact prober_table_and_scan.2.2.2.2.1 255 .unknown (strL "@1 @2 x") [] .jacosub
      (by decide)
  · exact prober_table_and_scan.2.2.2.2.2.1 [strL "plain prose"] (by decide)
  · exact prober_table_and_scan.2.2.2.2.2.2 [strL "plain prose"] procGlobals cue0 0 0
      (prober_table_and_scan.2.2.2.2.2.1 [strL "plain prose"] (by decide))

/-- C6 (amended): a `ParseSSA` call that reads some non-Dialogue lines and
then a Dialogue line emits one cue whose text is the payload with the
repaired field prefix — one leading comma in SSA-1 mode, and
`ReadOrder,Layer,` in SSA2-4/ASS mode with ReadOrder the passed zero-based
index and Layer the numeric marker for ASS (0 otherwise), the prefix
truncated to at most 15 characters by the 16-byte `snprintf` buffer — and
appends each preceding non-Dialogue line verbatim plus a newline to the
session header, in file order. -/
theorem ssa_repair_and_header_accumulation (pre : List (List Char)) :
    ∀ (fuel : Nat) (st : Pst) (sc : Cue) (idx : Nat) (d : List Char)
      (rest : List (List Char)) (ds : SsaScan),
    0 ≤ st.txt.iLine →
    st.txt.lines.drop st.txt.iLine.toNat = pre ++ d :: rest →
    (∀ x ∈ pre, scanSSADialogue x = none) →
    scanSSADialogue d = some ds →
    pre.length < fuel →
    ParseSSA fuel st sc idx =
      (some ⟨stampCsToUs ds.h1 ds.m1 ds.s1 ds.c1,
             stampCsToUs ds.h2 ds.m2 ds.s2 ds.c2,
             ssaRepair st.iType idx ds.marker ds.payload⟩,
       { st with
           txt := ⟨st.txt.lines, st.txt.iLine + pre.length + 1⟩,
           header := pre.foldl (fun h x => some (h.getD [] ++ x ++ ['\n'])) st.header }) := by
  induction pre with
  | nil =>
    intro fuel st sc idx d rest ds h0 hdrop hpre hd hf
    match fuel, hf with
    | n + 1, _ =>
      obtain ⟨hg, -, -⟩ := textGetLine_drop st.txt d rest h0 (by simpa using hdrop)
      simp only [ParseSSA, hg, hd, List.foldl_nil, List.length_nil, Nat.cast_zero,
        add_zero]
  | cons p pre' ih =>
    intro fuel st sc idx d rest ds h0 hdrop hpre hd hf
    match fuel, hf with
    | n + 1, hf =>
      obtain ⟨hg, ht, hrest⟩ :=
        textGetLine_drop st.txt p (pre' ++ d :: rest) h0 (by simpa using hdrop)
      have hp : scanSSADialogue p = none := hpre p (by simp)
      simp only [ParseSSA, hg, hp]
      rw [ih n _ sc idx d rest ds (by simp; omega) (by simpa using hrest)
            (fun x hx => hpre x (by simp [hx])) hd (by simpa using hf)]
      simp only [Prod.mk.injEq, Pst.mk.injEq, TextT.mk.injEq, List.foldl_cons,
        List.length_cons, true_and, and_true]
      push_cast
      omega

/-- Counterexample for C6 as stated: at cue index 1000, an ASS Dialogue
line with the 10-digit marker `2147483647` produces the text
`"1000,2147483647"` + payload — the `snprintf` buffer truncates the prefix
at 15 characters, losing the comma after Layer — not the claimed
`"1000,2147483647,"` + payload. -/
theorem ssa_prefix_truncation_counterexample :
    (ParseSSAEntry ssaTruncSt cue0 1000).1.map Cue.text =
      some (strL "1000,2147483647" ++ strL "Style,Name,0,0,0,,Payload") ∧
    strL "1000,2147483647" ++ strL "Style,Name,0,0,0,,Payload" ≠
      (strL "1000" ++ [','] ++ strL "2147483647" ++ [',']) ++
        strL "Style,Name,0,0,0,,Payload" := by
  constructor <;> decide

/-- Witness for C6 (amended): a header line then a Dialogue line in SSA2-4
mode; the cue gets prefix `0,0,` and the header line accumulates. -/
theorem ssa_repair_and_header_accumulation_witness :
    ParseSSA 2 ssaWitSt cue0 0 =
      (some ⟨1000000, 2000000, strL "0,0," ++ strL "S,N,0,0,0,,Hi"⟩,
       { ssaWitSt with
           txt := ⟨ssaWitSt.txt.lines, 2⟩,
           header := some (strL "ScriptType: v4.00" ++ ['\n']) }) :=
  (ssa_repair_and_header_accumulation [strL "ScriptType: v4.00"] 2 ssaWitSt cue0 0
      (strL "Dialogue: Marked=0,0:00:01.00,0:00:02.00,S,N,0,0,0,,Hi") []
      ⟨strL "Marked=0", 0, 0, 1, 0, 0, 0, 2, 0, strL "S,N,0,0,0,,Hi"⟩
      (by decide) (by decide) (by decide) (by decide) (by decide)).trans (by decide)

/-- C9: whatever the input, a cue emitted by `ParseSami` carries at most
8191 characters: the accumulation loop stores a character only while the
8 KiB buffer has room for it and its terminator, and characters beyond
that are dropped without any error. -/
theorem sami_text_capped (st : Pst) (sc : Cue) (idx : Nat) (c : Cue)
    (h : (ParseSami st sc idx).1 = some c) : c.text.length ≤ 8191 := by
  rcases he : ParseSami st sc idx with ⟨o, st2⟩
  rw [he] at h
  simp only at h
  subst h
  unfold ParseSami at he
  dsimp only at he
  split at he
  · simp at he
  · split at he
    · simp at he
    · split at he
      · simp at he
      · simp only [Prod.mk.injEq, Option.some.injEq] at he
        obtain ⟨he1, -⟩ := he
        rw [← he1]
        exact parseSamiLoop_le _ _ _ [] (by simp)

/-- Witness for C9: on a one-line SAMI input the parser succeeds, and the
emitted text respects the bound. -/
theorem sami_text_capped_witness :
    (ParseSami samiSt cue0 0).1 = some ⟨1000000, 0, strL "Hello"⟩ ∧
    (Cue.mk 1000000 0 (strL "Hello")).text.length ≤ 8191 :=
  ⟨by decide, sami_text_capped samiSt cue0 0 ⟨1000000, 0, strL "Hello"⟩ (by decide)⟩

/-- Witness for C10 at a concrete cursor: two lines, read both, push back
once, read again; the bounds hold, reading past the end returns NULL in
place, and pushing back at 0 does nothing. -/
theorem line_cursor_bounds_witness :
    (0 ≤ (applyOps ⟨[strL "a", strL "b"], 0⟩ [.next, .next, .pushback, .next]).iLine ∧
      (applyOps ⟨[strL "a", strL "b"], 0⟩ [.next, .next, .pushback, .next]).iLine ≤
        (((applyOps ⟨[strL "a", strL "b"], 0⟩
            [.next, .next, .pushback, .next]).lines.length : Int))) ∧
    TextGetLine ⟨[strL "a"], 1⟩ = (none, ⟨[strL "a"], 1⟩) ∧
    TextPreviousLine ⟨[strL "a"], 0⟩ = ⟨[strL "a"], 0⟩ :=
  ⟨line_cursor_bounds.1 ⟨[strL "a", strL "b"], 0⟩ [.next, .next, .pushback, .next]
      (by decide) (by decide),
   line_cursor_bounds.2.1 ⟨[strL "a"], 1⟩ (by decide),
   line_cursor_bounds.2.2 ⟨[strL "a"], 0⟩ (by decide)⟩

end Subtitle
